import Mathlib

/-!
Verification of the Order-Cart-Inventory Consistency Engine of a MERN
storefront backend. The definitions below are a shallow embedding of the
order routes module (the Express router handling order placement, lookup,
search and cancellation) together with the product data it touches.
Mongo documents become Lean structures, collections become lists, the
product stock becomes a total map from product id to available quantity,
and each route handler becomes a function from the database state and the
request parameters to the new state and the HTTP-level response.
-/

namespace MernOrders

/-- Per-line-item fulfillment status. The cancellation logic only ever
compares a status against Cancelled. -/
inductive ItemStatus
  | Active
  | Cancelled
  | Completed
deriving DecidableEq, Repr

/-- Requester roles delivered by the auth middleware. -/
inductive Role
  | Admin
  | Merchant
  | Customer
deriving DecidableEq, Repr

/-- One line item of a cart: the embedded cart product subdocument with
its own id, a product reference, a quantity and a status. -/
structure LineItem where
  id : Nat
  product : Nat
  quantity : Nat
  status : ItemStatus
deriving DecidableEq, Repr

/-- A cart document: an id and its list of line items. -/
structure Cart where
  id : Nat
  products : List LineItem
deriving DecidableEq, Repr

/-- An order document: id, bound cart reference, owning user, total. -/
structure Order where
  id : Nat
  cart : Nat
  user : Nat
  total : Rat
deriving DecidableEq, Repr

/-- The persistent state the order routes touch: the orders collection,
the carts collection, and the per-product available quantity. -/
structure Db where
  orders : List Order
  carts : List Cart
  stock : Nat → Nat

/-- Order.findOne with an id filter: first order whose id matches. -/
def findOrder (db : Db) (orderId : Nat) : Option Order :=
  db.orders.find? (fun o => o.id == orderId)

/-- Cart.findOne with an id filter: first cart whose id matches. -/
def findCart (db : Db) (cartId : Nat) : Option Cart :=
  db.carts.find? (fun c => c.id == cartId)

/-- Cart.findOne on a products id filter: first cart containing a line
item with the given id. -/
def findCartByItem (db : Db) (itemId : Nat) : Option Cart :=
  db.carts.find? (fun c => c.products.any (fun p => p.id == itemId))

/-- Order.deleteOne: removes the first order whose id matches. -/
def deleteOrderRec (db : Db) (orderId : Nat) : Db :=
  { db with orders := db.orders.eraseP (fun o => o.id == orderId) }

/-- Cart.deleteOne: removes the first cart whose id matches. -/
def deleteCartRec (db : Db) (cartId : Nat) : Db :=
  { db with carts := db.carts.eraseP (fun c => c.id == cartId) }

/-- Product.updateOne with an inc modifier: adds qty to the available
quantity of the given product, leaving every other product unchanged. -/
def restock (stock : Nat → Nat) (productId qty : Nat) : Nat → Nat :=
  fun p => if p = productId then stock p + qty else stock p

/-- The increaseQuantity helper of the order routes module: builds one
inc update per line item of the given list, for every item regardless of
its status, and submits them as one Product.bulkWrite. -/
def increaseQuantity (stock : Nat → Nat) (products : List LineItem) : Nat → Nat :=
  products.foldl (fun s item => restock s item.product item.quantity) stock

/-- Sets the status of the first line item with the given id. This is
the positional array update performed by Cart.updateOne on a products id
filter. -/
def setStatusFirst (items : List LineItem) (itemId : Nat) (status : ItemStatus) :
    List LineItem :=
  match items with
  | [] => []
  | p :: rest =>
    if p.id == itemId then { p with status := status } :: rest
    else p :: setStatusFirst rest itemId status

/-- Applies the positional status update to the first cart that contains
a line item with the given id, leaving the other carts unchanged. -/
def updateFirstCart (carts : List Cart) (itemId : Nat) (status : ItemStatus) :
    List Cart :=
  match carts with
  | [] => []
  | c :: rest =>
    if c.products.any (fun p => p.id == itemId) then
      { c with products := setStatusFirst c.products itemId status } :: rest
    else c :: updateFirstCart rest itemId status

/-- Cart.updateOne on a products id filter with a positional status
modifier, lifted to the database state. -/
def setItemStatus (db : Db) (itemId : Nat) (status : ItemStatus) : Db :=
  { db with carts := updateFirstCart db.carts itemId status }

/-- Response of the whole-order cancel route: a success body or the
generic 400 error produced by the catch block. -/
inductive CancelOrderResult
  | success
  | error
deriving DecidableEq, Repr

/-- Response of the per-item status route: success with the order also
cancelled, success with just the item cancelled, success for a non-cancel
status update, or the generic 400 error of the catch block. -/
inductive ItemStatusResult
  | orderCancelled
  | itemCancelled
  | statusUpdated
  | error
deriving DecidableEq, Repr

/-- The DELETE cancel orderId handler. It loads the order by id and its
cart, credits back the quantity of every line item of the cart via
increaseQuantity (regardless of line status), then deletes the order and
the cart. A missing order or cart raises inside the try block (a property
access on null) and lands in the catch, answering the 400 error. The
handler never reads the requester identity: the role and user parameters
delivered by the auth middleware are ignored. -/
def cancelOrder (db : Db) (_role : Role) (_userId : Nat) (orderId : Nat) :
    Db × CancelOrderResult :=
  match findOrder db orderId with
  | none => (db, CancelOrderResult.error)
  | some order =>
    match findCart db order.cart with
    | none => (db, CancelOrderResult.error)
    | some foundCart =>
      let db1 : Db := { db with stock := increaseQuantity db.stock foundCart.products }
      let db2 := deleteOrderRec db1 orderId
      let db3 := deleteCartRec db2 order.cart
      (db3, CancelOrderResult.success)

/-- The PUT status item itemId handler. The requested status defaults to
Cancelled when the request body carries none. It finds the cart holding
the item and the matching line item, applies the positional status
update, and, when the status is Cancelled, credits the quantity of the
line back to its product (with no check of the current status of the
line), re-reads the cart by the caller-supplied cart id, and deletes the
order and the cart when every line of the cart is now Cancelled. -/
def cancelItem (db : Db) (itemId orderId cartId : Nat)
    (statusReq : Option ItemStatus) : Db × ItemStatusResult :=
  let status := statusReq.getD ItemStatus.Cancelled
  match findCartByItem db itemId with
  | none => (db, ItemStatusResult.error)
  | some foundCart =>
    let db1 := setItemStatus db itemId status
    if status = ItemStatus.Cancelled then
      match foundCart.products.find? (fun p => p.id == itemId) with
      | none => (db1, ItemStatusResult.error)
      | some foundCartProduct =>
        let db2 : Db :=
          { db1 with
            stock := restock db1.stock foundCartProduct.product foundCartProduct.quantity }
        match findCart db2 cartId with
        | none => (db2, ItemStatusResult.error)
        | some cart =>
          let items := cart.products.filter (fun item => item.status == ItemStatus.Cancelled)
          if cart.products.length = items.length then
            let db3 := deleteOrderRec db2 orderId
            let db4 := deleteCartRec db3 cartId
            (db4, ItemStatusResult.orderCancelled)
          else (db2, ItemStatusResult.itemCancelled)
    else (db1, ItemStatusResult.statusUpdated)

/-- The order payload rendered by the read-side routes: id, total, the
line items of the bound cart, and the cart id. -/
structure OrderView where
  id : Nat
  total : Rat
  products : List LineItem
  cartId : Nat
deriving DecidableEq, Repr

/-- Response of the GET orderId handler: the order payload, the 404 not
found answer, or the generic 400 error of the catch block (which none of
the modelled steps can raise). -/
inductive GetOrderResult
  | found (order : OrderView)
  | notFound
  | error
deriving DecidableEq, Repr

/-- The role-dependent order lookup of the GET orderId handler: an Admin
requester looks up by id alone, any other requester looks up by id and
owning user together. -/
def orderLookup (db : Db) (role : Role) (userId orderId : Nat) : Option Order :=
  if role = Role.Admin then
    db.orders.find? (fun o => o.id == orderId)
  else
    db.orders.find? (fun o => o.id == orderId && o.user == userId)

/-- The GET orderId handler: looks the order up according to the
requester role, answers 404 when no order matches or when the bound cart
is missing (the populate left the cart field empty), and otherwise
renders the order payload. -/
def getOrder (db : Db) (role : Role) (userId orderId : Nat) : GetOrderResult :=
  match orderLookup db role userId orderId with
  | none => GetOrderResult.notFound
  | some o =>
    match findCart db o.cart with
    | none => GetOrderResult.notFound
    | some cart =>
      GetOrderResult.found
        { id := o.id, total := o.total, products := cart.products, cartId := cart.id }

/-- Response of the GET search handler: a 200 answer carrying a list of
orders (possibly empty), or the generic 400 error of the catch block. -/
inductive SearchResult
  | orders (found : List OrderView)
  | error
deriving DecidableEq, Repr

/-- The names bound in the module scope of the order routes file: the
CommonJS wrapper parameters, the require bindings of its header (the
mongoose package is bound under the capitalised name Mongoose), and the
two local helper definitions. -/
def orderRoutesModuleScope : List String :=
  ["require", "module", "exports",
   "express", "router", "Mongoose", "Order", "Cart", "Product", "auth",
   "mailgun", "store", "ROLES", "CART_ITEM_STATUS",
   "sendErrorResponse", "increaseQuantity"]

/-- The GET search handler. Its first statement reads the lowercase name
mongoose to validate the supplied identifier, but the module scope only
binds Mongoose: the reference fails to resolve, the exception is caught,
and the handler answers the 400 error. The branch guarded by the scope
lookup below transcribes the intended logic (invalid id gives an empty
list; otherwise orders matching the id, restricted to the requester for
non-Admin roles and to orders whose cart exists, are rendered) and is
unreachable as the code stands; were the name resolved, the later filter
call on the query object would also raise. -/
def searchOrders (db : Db) (searchIsValidId : Bool) (role : Role)
    (userId searchId : Nat) : SearchResult :=
  if orderRoutesModuleScope.contains "mongoose" then
    if searchIsValidId = false then SearchResult.orders []
    else
      let matched := db.orders.filter
        (fun o => o.id == searchId && (role == Role.Admin || o.user == userId))
      SearchResult.orders
        (matched.filterMap (fun o =>
          (findCart db o.cart).map (fun c =>
            OrderView.mk o.id o.total c.products c.id)))
  else SearchResult.error

/-- Response of the POST add handler: success carrying the new order id,
or the generic 400 error of the catch block. -/
inductive PlaceOrderResult
  | success (orderId : Nat)
  | error
deriving DecidableEq, Repr

/-- The POST add handler. Order.create inserts and commits the new order
document; the handler then awaits the order-confirmation email inside the
same try block, so a failure of the mail service lands in the catch and
answers the 400 error, while the already committed order stays in the
collection. The mailFails flag stands for the mail collaborator failing. -/
def placeOrder (db : Db) (nextOrderId cartId userId : Nat) (total : Rat)
    (mailFails : Bool) : Db × PlaceOrderResult :=
  let order : Order := { id := nextOrderId, cart := cartId, user := userId, total := total }
  let db1 : Db := { db with orders := db.orders ++ [order] }
  if mailFails then (db1, PlaceOrderResult.error)
  else (db1, PlaceOrderResult.success nextOrderId)

/-! ### Persistence-effect traces

For the ordering guarantee between restock and deletion the state model
above is too coarse: it applies every write instantly. The traces below
record, in program order, the persistence calls each cancellation handler
issues, together with whether the handler awaits their completion before
moving on, exactly as written in the source. -/

/-- Kinds of persistence calls issued by the cancellation handlers. -/
inductive EffectKind
  | findOrderCall
  | findCartCall
  | statusWrite
  | restockWrite
  | deleteOrderCall
  | deleteCartCall
deriving DecidableEq, Repr

/-- One persistence call and whether its completion is awaited before the
handler proceeds. -/
structure Effect where
  kind : EffectKind
  awaited : Bool
deriving DecidableEq, Repr

/-- The persistence calls of the DELETE cancel orderId handler in program
order. The two reads and the two deletes are awaited; the restock is the
Product.bulkWrite issued inside increaseQuantity, a plain synchronous
helper that drops the returned promise, so its completion is not awaited
before the deletes run. -/
def cancelOrderEffects : List Effect :=
  [⟨EffectKind.findOrderCall, true⟩,
   ⟨EffectKind.findCartCall, true⟩,
   ⟨EffectKind.restockWrite, false⟩,
   ⟨EffectKind.deleteOrderCall, true⟩,
   ⟨EffectKind.deleteCartCall, true⟩]

/-- The persistence calls of the PUT status item itemId handler, on the
path where the status is Cancelled and every line ends up Cancelled, in
program order: every call, the restock included, is awaited. -/
def cancelItemEffects : List Effect :=
  [⟨EffectKind.findCartCall, true⟩,
   ⟨EffectKind.statusWrite, true⟩,
   ⟨EffectKind.restockWrite, true⟩,
   ⟨EffectKind.findCartCall, true⟩,
   ⟨EffectKind.deleteOrderCall, true⟩,
   ⟨EffectKind.deleteCartCall, true⟩]

/-- True when the trace performs a delete while an earlier restock write
was issued without awaiting its completion, i.e. when a deletion can run
with the inventory credit still unapplied. -/
def deleteWhileRestockUnapplied : List Effect → Bool → Bool
  | [], _ => false
  | e :: rest, pending =>
    if (e.kind == EffectKind.deleteOrderCall || e.kind == EffectKind.deleteCartCall)
        && pending then true
    else
      deleteWhileRestockUnapplied rest
        (pending || (e.kind == EffectKind.restockWrite && !e.awaited))

/-! ### Tax Calculator

Modelled from the spec: the Tax Calculator (the calculateTaxAmount
function of the store utilities, a module not present among the source
files, only its call sites are) is a pure function over the line items
(quantity, unit price, taxable flag) and a fixed tax rate. Only taxable
lines contribute to the tax base; amounts are rounded to two decimal
places, half away from zero, only at the point of output. -/

/-- A line item as the Tax Calculator sees it. -/
structure TaxLine where
  quantity : Nat
  purchasePrice : Rat
  taxable : Bool
deriving DecidableEq, Repr

/-- Rounds a rational half away from zero to an integer. -/
def roundHalfAwayFromZero (q : Rat) : Int :=
  if q ≥ 0 then Int.floor (q + 1 / 2) else -Int.floor (-q + 1 / 2)

/-- Rounds a rational to two decimal places, half away from zero. -/
def round2 (q : Rat) : Rat :=
  (roundHalfAwayFromZero (q * 100) : Rat) / 100

/-- The tax base: the sum over the taxable lines of quantity times unit
price. -/
def taxBase (lines : List TaxLine) : Rat :=
  (lines.filter (fun l => l.taxable)).foldl
    (fun s l => s + (l.quantity : Rat) * l.purchasePrice) 0

/-- The subtotal: the sum over all lines of quantity times unit price. -/
def orderSubtotal (lines : List TaxLine) : Rat :=
  lines.foldl (fun s l => s + (l.quantity : Rat) * l.purchasePrice) 0

/-- The tax amount before rounding: tax rate times tax base. -/
def taxAmountOf (taxRate : Rat) (lines : List TaxLine) : Rat :=
  taxRate * taxBase lines

/-- The grand total before rounding: subtotal plus tax amount. -/
def grandTotalOf (taxRate : Rat) (lines : List TaxLine) : Rat :=
  orderSubtotal lines + taxAmountOf taxRate lines

/-- The rendered output of the Tax Calculator: the tax amount and the
grand total, each rounded to two decimals only here, at output. -/
def calculateTaxOutput (taxRate : Rat) (lines : List TaxLine) : Rat × Rat :=
  (round2 (taxAmountOf taxRate lines), round2 (grandTotalOf taxRate lines))

/-! ### Sample database states used by concrete evaluations -/

/-- The all-zero stock map. -/
def zeroStock : Nat → Nat := fun _ => 0

/-- A cart with two Active lines: item 11 (product 7, quantity 2) and
item 12 (product 8, quantity 3). -/
def twoLineCart : Cart :=
  ⟨1, [⟨11, 7, 2, ItemStatus.Active⟩, ⟨12, 8, 3, ItemStatus.Active⟩]⟩

/-- An order with id 5 bound to cart 1 and owned by user 100. -/
def twoLineOrder : Order := ⟨5, 1, 100, 25⟩

/-- A database holding the two-line order and its cart, all stock 0. -/
def twoLineDb : Db := ⟨[twoLineOrder], [twoLineCart], zeroStock⟩

/-- The same cart with line 11 already Cancelled and line 12 Active. -/
def partCancelledCart : Cart :=
  ⟨1, [⟨11, 7, 2, ItemStatus.Cancelled⟩, ⟨12, 8, 3, ItemStatus.Active⟩]⟩

/-- A database holding the order and the part-cancelled cart. -/
def partCancelledDb : Db := ⟨[twoLineOrder], [partCancelledCart], zeroStock⟩

/-- An empty database. -/
def emptyDb : Db := ⟨[], [], zeroStock⟩

/-- An order with id 21 bound to cart 9 and owned by user 100. -/
def aliceOrder : Order := ⟨21, 9, 100, 12⟩

/-- The cart bound to order 21, with one Active line. -/
def aliceCart : Cart := ⟨9, [⟨31, 7, 1, ItemStatus.Active⟩]⟩

/-- A database holding order 21 and its cart. -/
def aliceDb : Db := ⟨[aliceOrder], [aliceCart], zeroStock⟩

/-- A database holding order 21 but not its bound cart. -/
def orphanDb : Db := ⟨[aliceOrder], [], zeroStock⟩

/-! ### Claim theorems -/

/-- Claim C5: access control of the single-order read. An Admin
requester fetches any existing order whose cart exists; a non-privileged
requester asking for an order they do not own gets the 404 answer and
never the order data; the 404 answer is also produced when no order has
the requested id and when the looked-up order has no bound cart; and the
handler never produces the generic 400 error. -/
theorem getOrder_access_control :
    (∀ (db : Db) (uid oid : Nat) (o : Order) (c : Cart),
        db.orders.find? (fun x => x.id == oid) = some o →
        findCart db o.cart = some c →
        getOrder db Role.Admin uid oid =
          GetOrderResult.found ⟨o.id, o.total, c.products, c.id⟩) ∧
    (∀ (db : Db) (role : Role) (uid oid : Nat),
        role ≠ Role.Admin →
        (∀ o ∈ db.orders, o.id = oid → o.user ≠ uid) →
        getOrder db role uid oid = GetOrderResult.notFound) ∧
    (∀ (db : Db) (role : Role) (uid oid : Nat),
        (∀ o ∈ db.orders, o.id ≠ oid) →
        getOrder db role uid oid = GetOrderResult.notFound) ∧
    (∀ (db : Db) (role : Role) (uid oid : Nat) (o : Order),
        orderLookup db role uid oid = some o →
        findCart db o.cart = none →
        getOrder db role uid oid = GetOrderResult.notFound) ∧
    (∀ (db : Db) (role : Role) (uid oid : Nat),
        getOrder db role uid oid ≠ GetOrderResult.error) := by
  refine ⟨?_, ?_, ?_, ?_, ?_⟩
  · intro db uid oid o c ho hc
    simp [getOrder, orderLookup, ho, hc]
  · intro db role uid oid hrole hown
    have hlookup : orderLookup db role uid oid = none := by
      unfold orderLookup
      rw [if_neg hrole]
      refine List.find?_eq_none.mpr ?_
      intro x hx
      simp only [Bool.and_eq_true, beq_iff_eq, not_and]
      exact fun h1 h2 => hown x hx h1 h2
    simp [getOrder, hlookup]
  · intro db role uid oid hno
    have hlookup : orderLookup db role uid oid = none := by
      unfold orderLookup
      split
      · refine List.find?_eq_none.mpr ?_
        intro x hx
        simp only [beq_iff_eq]
        exact hno x hx
      · refine List.find?_eq_none.mpr ?_
        intro x hx
        simp only [Bool.and_eq_true, beq_iff_eq, not_and]
        exact fun h1 => absurd h1 (hno x hx)
    simp [getOrder, hlookup]
  · intro db role uid oid o hl hc
    simp [getOrder, hl, hc]
  · intro db role uid oid
    unfold getOrder
    split
    · simp
    · split <;> simp

/-- Claim C5 witness: concrete instances of the access-control theorem.
Admin user 555 fetches order 21 of user 100; customer 200 asking for
order 21 gets the 404 answer; customer 100 asking for the absent order
99 gets the 404 answer; Admin asking for order 21 in the database whose
cart is missing gets the 404 answer; and the owner read never produces
the generic error. -/
theorem getOrder_access_control_witness :
    getOrder aliceDb Role.Admin 555 21 =
      GetOrderResult.found ⟨21, 12, [⟨31, 7, 1, ItemStatus.Active⟩], 9⟩ ∧
    getOrder aliceDb Role.Customer 200 21 = GetOrderResult.notFound ∧
    getOrder aliceDb Role.Customer 100 99 = GetOrderResult.notFound ∧
    getOrder orphanDb Role.Admin 0 21 = GetOrderResult.notFound ∧
    getOrder aliceDb Role.Customer 100 21 ≠ GetOrderResult.error :=
  ⟨getOrder_access_control.1 aliceDb 555 21 aliceOrder aliceCart rfl rfl,
   getOrder_access_control.2.1 aliceDb Role.Customer 200 21 (by decide) (by decide),
   getOrder_access_control.2.2.1 aliceDb Role.Customer 100 99 (by decide),
   getOrder_access_control.2.2.2.1 orphanDb Role.Admin 0 21 aliceOrder rfl rfl,
   getOrder_access_control.2.2.2.2 aliceDb Role.Customer 100 21⟩

/-- Claim C1: inventory conservation fails on the code. In the two-line
database, cancelling line 11 (product 7, quantity 2) via the per-item
route and then cancelling the whole order credits product 7 twice: its
available quantity ends at 4, while the sum of the quantities of the
lines that were Active at the two cancellation times credits it only 2
(line 11 was no longer Active when the whole-order cancel restocked every
line of the cart). -/
theorem lifetime_restock_exceeds_active_lines :
    (cancelItem twoLineDb 11 5 1 none).1.stock 7 = 2 ∧
    (cancelOrder (cancelItem twoLineDb 11 5 1 none).1 Role.Customer 100 5).2 =
      CancelOrderResult.success ∧
    (cancelOrder (cancelItem twoLineDb 11 5 1 none).1 Role.Customer 100 5).1.stock 7 = 4 ∧
    (cancelOrder (cancelItem twoLineDb 11 5 1 none).1 Role.Customer 100 5).1.stock 8 = 3 := by
  refine ⟨by decide, by decide, by decide, by decide⟩

/-- Claim C2: cancelling an already-Cancelled line restocks it again. In
the part-cancelled database line 11 is already Cancelled and product 7
has available quantity 0; a further cancel-item call on line 11 credits
its quantity 2 once more (the handler never consults the current status
before the inventory credit) and still reports success. -/
theorem cancelItem_already_cancelled_restocks_again :
    (cancelItem partCancelledDb 11 5 1 none).1.stock 7 = 2 ∧
    (cancelItem partCancelledDb 11 5 1 none).2 = ItemStatusResult.itemCancelled := by
  refine ⟨by decide, by decide⟩

/-- Claim C4: the ordering guarantee fails on the whole-order cancel. In
the persistence trace of the DELETE cancel handler a deletion runs while
the restock write is still unapplied (increaseQuantity issues the bulk
write without awaiting it), whereas the per-item cancel trace awaits the
restock before deleting. -/
theorem cancelOrder_delete_races_unapplied_restock :
    deleteWhileRestockUnapplied cancelOrderEffects false = true ∧
    deleteWhileRestockUnapplied cancelItemEffects false = false := by
  refine ⟨by decide, by decide⟩

/-- Claim C6 counterexample: a requester with role Customer and user id
200 is neither the owner (user 100) of order 5 nor privileged, yet the
whole-order cancel succeeds for them and mutates the state: the order and
the cart are gone and product 7 has been restocked. -/
theorem cancelOrder_foreign_requester_succeeds :
    (cancelOrder twoLineDb Role.Customer 200 5).2 = CancelOrderResult.success ∧
    (cancelOrder twoLineDb Role.Customer 200 5).1.orders = [] ∧
    (cancelOrder twoLineDb Role.Customer 200 5).1.carts = [] ∧
    (cancelOrder twoLineDb Role.Customer 200 5).1.stock 7 = 2 := by
  refine ⟨by decide, by decide, by decide, by decide⟩

/-- Claim C6 amended: the whole-order cancel performs no ownership or
privilege check. Its outcome is independent of the requester role and
user id, and whenever the order and its bound cart exist it succeeds,
restocks every line of the cart and deletes the order and the cart,
whoever the requester is. -/
theorem cancelOrder_ignores_requester_identity
    (db : Db) (r r' : Role) (u u' : Nat) (oid : Nat) (o : Order) (c : Cart)
    (ho : findOrder db oid = some o) (hc : findCart db o.cart = some c) :
    cancelOrder db r u oid = cancelOrder db r' u' oid ∧
    cancelOrder db r u oid =
      (⟨db.orders.eraseP (fun x => x.id == oid),
        db.carts.eraseP (fun x => x.id == o.cart),
        increaseQuantity db.stock c.products⟩, CancelOrderResult.success) := by
  refine ⟨rfl, ?_⟩
  simp only [cancelOrder, ho, hc, deleteOrderRec, deleteCartRec]

/-- Claim C6 amended, witness: in the two-line database a Merchant
requester with user id 42 obtains the same outcome as an Admin requester
with user id 7, and the cancel succeeds with the order erased, the cart
erased and the stock credited. -/
theorem cancelOrder_ignores_requester_identity_witness :
    cancelOrder twoLineDb Role.Merchant 42 5 = cancelOrder twoLineDb Role.Admin 7 5 ∧
    cancelOrder twoLineDb Role.Merchant 42 5 =
      (⟨twoLineDb.orders.eraseP (fun x => x.id == 5),
        twoLineDb.carts.eraseP (fun x => x.id == twoLineOrder.cart),
        increaseQuantity twoLineDb.stock twoLineCart.products⟩, CancelOrderResult.success) :=
  cancelOrder_ignores_requester_identity twoLineDb Role.Merchant Role.Admin 42 7 5
    twoLineOrder twoLineCart (by decide) (by decide)

/-- Claim C7: every search request is answered with the generic 400
error, never with an order list, because the handler reads the unbound
lowercase name mongoose (the module binds the package as Mongoose); in
particular a malformed identifier does not yield the empty list the spec
asks for. -/
theorem searchOrders_always_reference_error
    (db : Db) (validId : Bool) (role : Role) (userId searchId : Nat) :
    searchOrders db validId role userId searchId = SearchResult.error := by
  have h : ¬ ("mongoose" ∈ orderRoutesModuleScope) := by decide
  simp [searchOrders, h]

/-- Claim C8: when the order-confirmation mail fails, the already
committed order is not rolled back (it sits at the end of the orders
collection), but the handler answers the generic 400 error instead of
reporting the placement successful. -/
theorem placeOrder_mail_failure_keeps_order_reports_error
    (db : Db) (i c u : Nat) (t : Rat) :
    (placeOrder db i c u t true).1.orders = db.orders ++ [⟨i, c, u, t⟩] ∧
    (placeOrder db i c u t true).2 = PlaceOrderResult.error :=
  ⟨rfl, rfl⟩

/-- Claim C9: on the cart with productA quantity 2 taxable at unit price
10 and productB quantity 1 non-taxable at unit price 5, with tax rate one
tenth, the tax base is 20, the tax amount 2 and the grand total 27; the
two-decimal half-away-from-zero rounding is applied only in the output
function and leaves these exact amounts unchanged. -/
theorem taxCalculator_two_line_scenario :
    taxBase [⟨2, 10, true⟩, ⟨1, 5, false⟩] = 20 ∧
    taxAmountOf (1 / 10) [⟨2, 10, true⟩, ⟨1, 5, false⟩] = 2 ∧
    grandTotalOf (1 / 10) [⟨2, 10, true⟩, ⟨1, 5, false⟩] = 27 ∧
    calculateTaxOutput (1 / 10) [⟨2, 10, true⟩, ⟨1, 5, false⟩] = (2, 27) := by
  refine ⟨?_, ?_, ?_, ?_⟩ <;>
    norm_num [calculateTaxOutput, round2, roundHalfAwayFromZero, taxAmountOf, grandTotalOf,
      orderSubtotal, taxBase, List.filter, List.foldl]

/-- In a list of line items with pairwise distinct ids, searching for
the id of a member returns exactly that member. -/
theorem find?_id_eq_of_mem (items : List LineItem) (target : LineItem)
    (hmem : target ∈ items) (hnodup : (items.map (fun p => p.id)).Nodup) :
    items.find? (fun p => p.id == target.id) = some target := by
  induction items with
  | nil => cases hmem
  | cons p rest ih =>
    rw [List.map_cons, List.nodup_cons] at hnodup
    rcases List.mem_cons.mp hmem with h | h
    · subst h
      exact List.find?_cons_of_pos _ (by simp)
    · have hid : p.id ≠ target.id := by
        intro he
        exact hnodup.1 (he ▸ List.mem_map_of_mem (fun q => q.id) h)
      rw [List.find?_cons_of_neg _ (by simp [hid])]
      exact ih h hnodup.2

/-- Setting the status of one line leaves the number of lines of the
cart unchanged. -/
theorem setStatusFirst_length (items : List LineItem) (tid : Nat) (s : ItemStatus) :
    (setStatusFirst items tid s).length = items.length := by
  induction items with
  | nil => rfl
  | cons p rest ih =>
    by_cases h : p.id = tid
    · simp [setStatusFirst, h]
    · simp [setStatusFirst, h, ih]

/-- After cancelling the line of a member of a cart with pairwise
distinct line ids, every line of the cart is Cancelled exactly when every
other line already was. -/
theorem setStatusFirst_all_cancelled_iff (items : List LineItem) (target : LineItem)
    (hmem : target ∈ items) (hnodup : (items.map (fun p => p.id)).Nodup) :
    ((∀ x ∈ setStatusFirst items target.id ItemStatus.Cancelled,
        x.status = ItemStatus.Cancelled) ↔
      ∀ x ∈ items, x.id ≠ target.id → x.status = ItemStatus.Cancelled) := by
  induction items with
  | nil => cases hmem
  | cons p rest ih =>
    rw [List.map_cons, List.nodup_cons] at hnodup
    rcases List.mem_cons.mp hmem with h | h
    · subst h
      simp only [setStatusFirst, beq_self_eq_true, if_true]
      constructor
      · intro hall x hx hne
        rcases List.mem_cons.mp hx with rfl | hx2
        · exact absurd rfl hne
        · exact hall x (List.mem_cons_of_mem _ hx2)
      · intro hall x hx
        rcases List.mem_cons.mp hx with rfl | hx2
        · rfl
        · refine hall x (List.mem_cons_of_mem _ hx2) ?_
          intro he
          exact hnodup.1 (he ▸ List.mem_map_of_mem (fun q => q.id) hx2)
    · have hid : p.id ≠ target.id := by
        intro he
        exact hnodup.1 (he ▸ List.mem_map_of_mem (fun q => q.id) h)
      have hbeq : (p.id == target.id) = false := beq_eq_false_iff_ne.mpr hid
      simp only [setStatusFirst, hbeq, Bool.false_eq_true, if_false]
      constructor
      · intro hall x hx hne
        rcases List.mem_cons.mp hx with rfl | hx2
        · exact hall x (List.mem_cons_self _ _)
        · exact (ih h hnodup.2).mp (fun y hy => hall y (List.mem_cons_of_mem _ hy)) x hx2 hne
      · intro hall x hx
        rcases List.mem_cons.mp hx with rfl | hx2
        · exact hall x (List.mem_cons_self _ _) hid
        · exact (ih h hnodup.2).mpr
            (fun y hy hne => hall y (List.mem_cons_of_mem _ hy) hne) x hx2

/-- Runs the per-item cancel (with the defaulted Cancelled status) on a
database whose single cart holds the target line: the stock is credited
with the quantity of the target, the status update is applied, and the
order and cart are deleted exactly when the updated cart counts every
line as Cancelled, as the handler checks by comparing lengths. -/
theorem cancelItem_singleton_run (orders : List Order) (stock : Nat → Nat)
    (cid oid : Nat) (items : List LineItem) (target : LineItem)
    (hmem : target ∈ items) (hnodup : (items.map (fun p => p.id)).Nodup) :
    cancelItem ⟨orders, [⟨cid, items⟩], stock⟩ target.id oid cid none =
      (if (setStatusFirst items target.id ItemStatus.Cancelled).length =
          ((setStatusFirst items target.id ItemStatus.Cancelled).filter
            (fun item => item.status == ItemStatus.Cancelled)).length then
        (⟨orders.eraseP (fun o => o.id == oid), [],
          restock stock target.product target.quantity⟩,
         ItemStatusResult.orderCancelled)
      else
        (⟨orders, [⟨cid, setStatusFirst items target.id ItemStatus.Cancelled⟩],
          restock stock target.product target.quantity⟩,
         ItemStatusResult.itemCancelled)) := by
  have hany : items.any (fun p => p.id == target.id) = true :=
    List.any_eq_true.mpr ⟨target, hmem, by simp⟩
  have hfind2 : items.find? (fun p => p.id == target.id) = some target :=
    find?_id_eq_of_mem items target hmem hnodup
  have hex : ∃ x ∈ items, x.id = target.id := ⟨target, hmem, rfl⟩
  simp only [cancelItem, findCartByItem, setItemStatus, updateFirstCart, findCart,
    List.find?_cons_of_pos _ hany, hany, if_true, Option.getD, hfind2,
    deleteOrderRec, deleteCartRec]
  simp [List.eraseP_cons, setStatusFirst_length, hex, hfind2]

/-- Claim C3: for a cart with pairwise distinct line ids bound to an
order, one per-item cancel call deletes the order and the cart exactly
when the cancelled line is the last one not yet Cancelled: if some other
line is still not Cancelled the call answers itemCancelled and leaves the
order and the updated cart in place, and if every other line is already
Cancelled the call deletes the order and the cart and answers
orderCancelled. Iterating over the lines of an N-line cart one at a time,
this is precisely the Nth call and no earlier one. -/
theorem cancelItem_deletes_order_exactly_on_last_line
    (orders : List Order) (stock : Nat → Nat) (cid oid : Nat)
    (items : List LineItem) (target : LineItem)
    (hmem : target ∈ items) (hnodup : (items.map (fun p => p.id)).Nodup) :
    ((∃ other ∈ items, other.id ≠ target.id ∧ other.status ≠ ItemStatus.Cancelled) →
        cancelItem ⟨orders, [⟨cid, items⟩], stock⟩ target.id oid cid none =
          (⟨orders, [⟨cid, setStatusFirst items target.id ItemStatus.Cancelled⟩],
            restock stock target.product target.quantity⟩,
           ItemStatusResult.itemCancelled)) ∧
    ((∀ other ∈ items, other.id ≠ target.id → other.status = ItemStatus.Cancelled) →
        cancelItem ⟨orders, [⟨cid, items⟩], stock⟩ target.id oid cid none =
          (⟨orders.eraseP (fun o => o.id == oid), [],
            restock stock target.product target.quantity⟩,
           ItemStatusResult.orderCancelled)) := by
  have hrun := cancelItem_singleton_run orders stock cid oid items target hmem hnodup
  have hiff : ((setStatusFirst items target.id ItemStatus.Cancelled).length =
      ((setStatusFirst items target.id ItemStatus.Cancelled).filter
        (fun item => item.status == ItemStatus.Cancelled)).length) ↔
      ∀ x ∈ items, x.id ≠ target.id → x.status = ItemStatus.Cancelled := by
    rw [eq_comm, List.filter_length_eq_length]
    simp only [beq_iff_eq]
    exact setStatusFirst_all_cancelled_iff items target hmem hnodup
  constructor
  · intro hex
    rw [hrun, if_neg]
    intro hcond
    rcases hex with ⟨other, hoin, hne, hnc⟩
    exact hnc (hiff.mp hcond other hoin hne)
  · intro hall
    rw [hrun, if_pos (hiff.mpr hall)]

/-- Claim C3 witness: in the two-line all-Active cart, cancelling line
11 answers itemCancelled and keeps the order and the cart; in the cart
whose line 11 is already Cancelled, cancelling line 12 deletes the order
and the cart and answers orderCancelled. -/
theorem cancelItem_deletes_order_exactly_on_last_line_witness :
    cancelItem ⟨[twoLineOrder], [twoLineCart], zeroStock⟩ 11 5 1 none =
      (⟨[twoLineOrder],
        [⟨1, [⟨11, 7, 2, ItemStatus.Cancelled⟩, ⟨12, 8, 3, ItemStatus.Active⟩]⟩],
        restock zeroStock 7 2⟩, ItemStatusResult.itemCancelled) ∧
    cancelItem ⟨[twoLineOrder], [partCancelledCart], zeroStock⟩ 12 5 1 none =
      (⟨[], [], restock zeroStock 8 3⟩, ItemStatusResult.orderCancelled) :=
  ⟨(cancelItem_deletes_order_exactly_on_last_line [twoLineOrder] zeroStock 1 5
      twoLineCart.products ⟨11, 7, 2, ItemStatus.Active⟩ (by decide) (by decide)).1
      (by decide),
   (cancelItem_deletes_order_exactly_on_last_line [twoLineOrder] zeroStock 1 5
      partCancelledCart.products ⟨12, 8, 3, ItemStatus.Active⟩ (by decide) (by decide)).2
      (by decide)⟩

/-- Claim C10: when the request body carries no status, the per-item
status route behaves exactly as an explicit cancel: the call with no
status equals the call with status Cancelled on every database, and on
the two-line database it marks line 11 Cancelled and credits its quantity
2 back to product 7. -/
theorem cancelItem_status_defaults_to_cancelled :
    (∀ (db : Db) (itemId orderId cartId : Nat),
        cancelItem db itemId orderId cartId none =
          cancelItem db itemId orderId cartId (some ItemStatus.Cancelled)) ∧
    (cancelItem twoLineDb 11 5 1 none).1.carts =
      [⟨1, [⟨11, 7, 2, ItemStatus.Cancelled⟩, ⟨12, 8, 3, ItemStatus.Active⟩]⟩] ∧
    (cancelItem twoLineDb 11 5 1 none).1.stock 7 = 2 ∧
    (cancelItem twoLineDb 11 5 1 none).2 = ItemStatusResult.itemCancelled := by
  refine ⟨fun db itemId orderId cartId => rfl, by decide, by decide, by decide⟩

end MernOrders
